import Mathlib

set_option maxRecDepth 200000

/-!
Verification of the System Services bot (webhook verifier, guild provisioner,
settings store, channel resolver, event dispatcher) against its specification.

The JavaScript source is shallowly embedded:
  - JS strings are modelled as lists of characters (JsStr);
  - byte buffers are lists of naturals below 256;
  - 32-bit machine words are naturals reduced modulo 2 ^ 32;
  - remote Discord API calls are parameters of the embedding (an environment
    record supplies the success or failure of every outbound call), and each
    try/catch of the source is translated to an explicit match on the result;
  - the Node crypto HMAC-SHA256 primitive is implemented in full (FIPS 180-4)
    so that every verifier run is executable inside the logic.
-/

/-- JavaScript strings are modelled as lists of characters. -/
abbrev JsStr := List Char

/-- 2 ^ 32, the modulus for 32-bit words. -/
def M32 : Nat := 4294967296

/-- Right rotation of a 32-bit word by n bits. -/
def rotr (n x : Nat) : Nat := ((x >>> n) ||| (x <<< (32 - n))) % M32

/-- The 64 SHA-256 round constants (FIPS 180-4 section 4.2.2). -/
def sha256K : List Nat :=
  [1116352408, 1899447441, 3049323471, 3921009573, 961987163,
   1508970993, 2453635748, 2870763221, 3624381080, 310598401,
   607225278, 1426881987, 1925078388, 2162078206, 2614888103,
   3248222580, 3835390401, 4022224774, 264347078, 604807628,
   770255983, 1249150122, 1555081692, 1996064986, 2554220882,
   2821834349, 2952996808, 3210313671, 3336571891, 3584528711,
   113926993, 338241895, 666307205, 773529912, 1294757372,
   1396182291, 1695183700, 1986661051, 2177026350, 2456956037,
   2730485921, 2820302411, 3259730800, 3345764771, 3516065817,
   3600352804, 4094571909, 275423344, 430227734, 506948616,
   659060556, 883997877, 958139571, 1322822218, 1537002063,
   1747873779, 1955562222, 2024104815, 2227730452, 2361852424,
   2428436474, 2756734187, 3204031479, 3329325298]

/-- The eight-word SHA-256 working state. -/
structure S8 where
  a : Nat
  b : Nat
  c : Nat
  d : Nat
  e : Nat
  f : Nat
  g : Nat
  h : Nat
deriving DecidableEq

/-- Initial SHA-256 hash value (FIPS 180-4 section 5.3.3). -/
def initS8 : S8 :=
  ⟨1779033703, 3144134277, 1013904242, 2773480762,
   1359893119, 2600822924, 528734635, 1541459225⟩

/-- Big-endian decomposition of a 32-bit word into four bytes. -/
def wordToBytes (w : Nat) : List Nat :=
  [w / 16777216 % 256, w / 65536 % 256, w / 256 % 256, w % 256]

/-- Big-endian recomposition of bytes into 32-bit words (trailing leftovers dropped). -/
def bytesToWords : List Nat → List Nat
  | a :: b :: c :: d :: rest => (((a * 256 + b) * 256 + c) * 256 + d) :: bytesToWords rest
  | _ => []

/-- The 64-bit big-endian length field appended by SHA-256 padding. -/
def lenBytes64 (n : Nat) : List Nat :=
  [n / 2 ^ 56 % 256, n / 2 ^ 48 % 256, n / 2 ^ 40 % 256, n / 2 ^ 32 % 256,
   n / 2 ^ 24 % 256, n / 2 ^ 16 % 256, n / 2 ^ 8 % 256, n % 256]

/-- SHA-256 padding: append 0x80, zeros to 56 mod 64, then the bit length. -/
def padMessage (msg : List Nat) : List Nat :=
  let L := msg.length
  msg ++ [0x80] ++ List.replicate ((119 - L % 64) % 64) 0 ++ lenBytes64 (L * 8)

/-- Split a byte list into 64-byte blocks (fuelled recursion). -/
def toBlocksF : Nat → List Nat → List (List Nat)
  | _, [] => []
  | 0, _ => []
  | n + 1, l => l.take 64 :: toBlocksF n (l.drop 64)

/-- Split a byte list into 64-byte blocks. -/
def toBlocks (l : List Nat) : List (List Nat) := toBlocksF l.length l

/-- Extend the 16-word message block to the 64-word message schedule. -/
def sched (acc : List Nat) : Nat → List Nat
  | 0 => acc
  | Nat.succ n =>
    let l := acc.length
    let x2 := acc.getD (l - 2) 0
    let x7 := acc.getD (l - 7) 0
    let x15 := acc.getD (l - 15) 0
    let x16 := acc.getD (l - 16) 0
    let s0 := (rotr 7 x15) ^^^ (rotr 18 x15) ^^^ (x15 >>> 3)
    let s1 := (rotr 17 x2) ^^^ (rotr 19 x2) ^^^ (x2 >>> 10)
    sched (acc ++ [(x16 + s0 + x7 + s1) % M32]) n

/-- One SHA-256 compression round. -/
def roundStep (s : S8) (kw : Nat × Nat) : S8 :=
  let bigS1 := (rotr 6 s.e) ^^^ (rotr 11 s.e) ^^^ (rotr 25 s.e)
  let ch := (s.e &&& s.f) ^^^ ((s.e ^^^ (M32 - 1)) &&& s.g)
  let t1 := (s.h + bigS1 + ch + kw.1 + kw.2) % M32
  let bigS0 := (rotr 2 s.a) ^^^ (rotr 13 s.a) ^^^ (rotr 22 s.a)
  let mj := (s.a &&& s.b) ^^^ (s.a &&& s.c) ^^^ (s.b &&& s.c)
  let t2 := (bigS0 + mj) % M32
  ⟨(t1 + t2) % M32, s.a, s.b, s.c, (s.d + t1) % M32, s.e, s.f, s.g⟩

/-- Compress one 64-byte block into the running hash state. -/
def compressBlock (h0 : S8) (block : List Nat) : S8 :=
  let ws := sched (bytesToWords block) 48
  let f := (List.zip sha256K ws).foldl roundStep h0
  ⟨(h0.a + f.a) % M32, (h0.b + f.b) % M32, (h0.c + f.c) % M32, (h0.d + f.d) % M32,
   (h0.e + f.e) % M32, (h0.f + f.f) % M32, (h0.g + f.g) % M32, (h0.h + f.h) % M32⟩

/-- SHA-256 of a byte sequence, as the 32-byte digest. -/
def sha256 (msg : List Nat) : List Nat :=
  let hf := (toBlocks (padMessage msg)).foldl compressBlock initS8
  [hf.a, hf.b, hf.c, hf.d, hf.e, hf.f, hf.g, hf.h].flatMap wordToBytes

/-- HMAC-SHA256 (RFC 2104) with a 64-byte block size, as used by Node crypto. -/
def hmacSha256 (key msg : List Nat) : List Nat :=
  let k1 := if key.length > 64 then sha256 key else key
  let k0 := k1 ++ List.replicate (64 - k1.length) 0
  sha256 ((k0.map (fun b => b ^^^ 0x5c)) ++ sha256 ((k0.map (fun b => b ^^^ 0x36)) ++ msg))

/-- The sixteen lowercase hex digits. -/
def hexAlphabet : List Char := "0123456789abcdef".toList

/-- Lowercase hex digit for a value below 16. -/
def hexDigit (n : Nat) : Char := hexAlphabet.getD n '0'

/-- Lowercase hex encoding of a byte list, as produced by hmac.digest of the source. -/
def hexLower (bs : List Nat) : JsStr :=
  bs.flatMap (fun b => [hexDigit (b / 16 % 16), hexDigit (b % 16)])

/-- UTF-8 encoding of one character (RFC 3629). -/
def utf8Char (c : Char) : List Nat :=
  let n := c.toNat
  if n < 0x80 then [n]
  else if n < 0x800 then [0xC0 + n / 64, 0x80 + n % 64]
  else if n < 0x10000 then [0xE0 + n / 4096, 0x80 + n / 64 % 64, 0x80 + n % 64]
  else [0xF0 + n / 262144, 0x80 + n / 4096 % 64, 0x80 + n / 64 % 64, 0x80 + n % 64]

/-- UTF-8 encoding of a string, modelling Buffer.from of the source with utf8 encoding. -/
def utf8Encode (s : JsStr) : List Nat := s.flatMap utf8Char

/-- JavaScript s.split(sep) for a single-character separator: split at every
occurrence of the separator, keeping empty segments. -/
def splitOnChar (sep : Char) : JsStr → List JsStr
  | [] => [[]]
  | c :: rest =>
    match splitOnChar sep rest with
    | [] => [[c]]
    | cur :: others =>
      if c = sep then [] :: cur :: others else (c :: cur) :: others

/-- An inbound HTTP request as seen by the Express handlers: the raw body bytes
captured by the middleware, the x-render-signature header and the content type
(absent headers are none). -/
structure Request where
  rawBody : List Nat
  signatureHeader : Option JsStr
  contentType : Option JsStr
deriving DecidableEq

/-- Embedding of verifyRenderWebhook (src/system-services-bot/index.js, lines
1706-1730; the draft at lines 359-374 is identical in behaviour).  The secret
is the RENDER_WEBHOOK_SECRET environment value (none when unset).  The two
Buffer.from(x, utf8) values are compared by a length check followed by
timingSafeEqual, which on equal lengths is bytewise equality.  The try/catch
of the source guards library-level failures of createHmac that have no
counterpart in the model. -/
def verifyRenderWebhook (secret : Option JsStr) (req : Request) : Bool :=
  let s := secret.getD []
  if s = [] then true
  else
    let headerSig := (req.signatureHeader.getD [])
    if headerSig = [] then false
    else
      let digest := hexLower (hmacSha256 (utf8Encode s) req.rawBody)
      let headerNormalized :=
        if ("sha256=".toList).isPrefixOf headerSig
        then (splitOnChar '=' headerSig).getD 1 []
        else headerSig
      let a := utf8Encode digest
      let b := utf8Encode headerNormalized
      if a.length ≠ b.length then false else a == b

/-- The digest header a correctly signing caller sends for body b and secret s. -/
def signedHeader (s : JsStr) (b : List Nat) : JsStr :=
  "sha256=".toList ++ hexLower (hmacSha256 (utf8Encode s) b)

-- SHA-256 and HMAC test vectors (FIPS 180-4 / RFC 4231 style checks).
example : hexLower (sha256 []) =
    "e3b0c44298fc1c149afbf4c8996fb92427ae41e4649b934ca495991b7852b855".toList := by decide

example : hexLower (sha256 [0x61, 0x62, 0x63]) =
    "ba7816bf8f01cfea414140de5dae2223b00361a396177a9cb410ff61f20015ad".toList := by decide

example : hexLower (hmacSha256 (utf8Encode "key".toList) (utf8Encode
    "The quick brown fox jumps over the lazy dog".toList)) =
    "f7bc83f430538424b13298e6aa6fb143ef4d59a14946175997479dbc2d1a3cd8".toList := by decide

/-! ### Support lemmas: hex encoding, UTF-8 encoding, splitting -/

theorem hexDigit_mem (n : Nat) : hexDigit n ∈ hexAlphabet := by
  by_cases h : n < 16
  · interval_cases n <;> decide
  · have hlen : hexAlphabet.length = 16 := by decide
    unfold hexDigit
    rw [List.getD_eq_getElem?_getD, List.getElem?_eq_none (by omega)]
    decide

theorem mem_hexLower {bs : List Nat} {c : Char} (h : c ∈ hexLower bs) : c ∈ hexAlphabet := by
  unfold hexLower at h
  obtain ⟨b, -, hb⟩ := List.mem_flatMap.1 h
  simp only [List.mem_cons, List.not_mem_nil, or_false] at hb
  rcases hb with h1 | h1 <;> (subst h1; exact hexDigit_mem _)

theorem hexAlphabet_ascii : ∀ c ∈ hexAlphabet, c.toNat < 128 := by decide

theorem eq_not_mem_hexLower (bs : List Nat) : '=' ∉ hexLower bs := by
  intro h
  have h2 : ('=' : Char) ∉ hexAlphabet := by decide
  exact h2 (mem_hexLower h)

theorem hexLower_ascii {bs : List Nat} {c : Char} (h : c ∈ hexLower bs) : c.toNat < 128 :=
  hexAlphabet_ascii c (mem_hexLower h)

theorem hexLower_length (bs : List Nat) : (hexLower bs).length = 2 * bs.length := by
  induction bs with
  | nil => rfl
  | cons b bs ih =>
    simp only [hexLower, List.flatMap_cons, List.length_append, List.length_cons,
      List.length_nil] at ih ⊢
    omega

theorem hexDigit_inj {m n : Nat} (hm : m < 16) (hn : n < 16) (h : hexDigit m = hexDigit n) :
    m = n := by
  revert h
  interval_cases m <;> interval_cases n <;> decide

theorem hexLower_inj : ∀ {bs cs : List Nat}, (∀ x ∈ bs, x < 256) → (∀ x ∈ cs, x < 256) →
    hexLower bs = hexLower cs → bs = cs := by
  intro bs
  induction bs with
  | nil =>
    intro cs _ _ h
    cases cs with
    | nil => rfl
    | cons c cs => simp [hexLower] at h
  | cons b bs ih =>
    intro cs hb hc h
    cases cs with
    | nil => simp [hexLower] at h
    | cons c cs =>
      simp only [hexLower, List.flatMap_cons, List.cons_append, List.nil_append,
        List.cons.injEq] at h
      obtain ⟨h1, h2, h3⟩ := h
      have hblt : b < 256 := hb b (by simp)
      have hclt : c < 256 := hc c (by simp)
      have e1 : b / 16 % 16 = c / 16 % 16 :=
        hexDigit_inj (Nat.mod_lt _ (by omega)) (Nat.mod_lt _ (by omega)) h1
      have e2 : b % 16 = c % 16 :=
        hexDigit_inj (Nat.mod_lt _ (by omega)) (Nat.mod_lt _ (by omega)) h2
      have hbc : b = c := by omega
      have htail : bs = cs := by
        refine ih (fun x hx => hb x (by simp [hx])) (fun x hx => hc x (by simp [hx])) ?_
        simpa [hexLower] using h3
      rw [hbc, htail]

theorem mem_wordToBytes_lt {w x : Nat} (h : x ∈ wordToBytes w) : x < 256 := by
  simp only [wordToBytes, List.mem_cons, List.not_mem_nil, or_false] at h
  rcases h with h | h | h | h <;> (subst h; omega)

theorem sha256_lt (msg : List Nat) : ∀ x ∈ sha256 msg, x < 256 := by
  intro x hx
  simp only [sha256] at hx
  obtain ⟨w, -, hw⟩ := List.mem_flatMap.1 hx
  exact mem_wordToBytes_lt hw

theorem hmacSha256_lt (key msg : List Nat) : ∀ x ∈ hmacSha256 key msg, x < 256 :=
  sha256_lt _

theorem sha256_length (msg : List Nat) : (sha256 msg).length = 32 := by
  simp [sha256, wordToBytes]

theorem hmacSha256_length (key msg : List Nat) : (hmacSha256 key msg).length = 32 :=
  sha256_length _

theorem utf8Char_ascii {c : Char} (h : c.toNat < 128) : utf8Char c = [c.toNat] := by
  simp [utf8Char, h]

theorem utf8Encode_ascii {s : JsStr} (h : ∀ c ∈ s, c.toNat < 128) :
    utf8Encode s = s.map Char.toNat := by
  induction s with
  | nil => rfl
  | cons c rest ih =>
    simp only [utf8Encode, List.flatMap_cons] at ih ⊢
    rw [utf8Char_ascii (h c (by simp)), ih (fun x hx => h x (by simp [hx]))]
    rfl

theorem utf8Char_length_ge {c : Char} (h : ¬ c.toNat < 128) : 2 ≤ (utf8Char c).length := by
  by_cases h2 : c.toNat < 2048
  · simp [utf8Char, h, h2]
  · by_cases h3 : c.toNat < 65536 <;> simp [utf8Char, h, h2, h3]

theorem splitOnChar_ne_nil (sep : Char) (l : JsStr) : splitOnChar sep l ≠ [] := by
  induction l with
  | nil => simp [splitOnChar]
  | cons c rest ih =>
    simp only [splitOnChar]
    cases h : splitOnChar sep rest with
    | nil => exact absurd h ih
    | cons cur others => by_cases hc : c = sep <;> simp [hc]

theorem splitOnChar_append (sep : Char) (xs ys : JsStr) (h : sep ∉ xs) :
    splitOnChar sep (xs ++ sep :: ys) = xs :: splitOnChar sep ys := by
  induction xs with
  | nil =>
    simp only [List.nil_append, splitOnChar]
    cases h2 : splitOnChar sep ys with
    | nil => exact absurd h2 (splitOnChar_ne_nil sep ys)
    | cons cur others => simp
  | cons x xs ih =>
    have hx : x ≠ sep := fun hxe => h (by simp [hxe])
    have hxs : sep ∉ xs := fun hm => h (by simp [hm])
    simp only [List.cons_append, splitOnChar, List.append_eq]
    rw [ih hxs]
    simp [hx]

theorem splitOnChar_head (sep : Char) (l : JsStr) :
    (splitOnChar sep l).getD 0 [] = l.takeWhile (fun c => c != sep) := by
  induction l with
  | nil => rfl
  | cons c rest ih =>
    simp only [splitOnChar]
    cases h : splitOnChar sep rest with
    | nil => exact absurd h (splitOnChar_ne_nil sep rest)
    | cons cur others =>
      rw [h] at ih
      by_cases hc : c = sep
      · simp [hc, List.takeWhile_cons]
      · simp only [if_neg hc, List.takeWhile_cons]
        have hb : (c != sep) = true := by simp [hc]
        simp only [hb, if_pos]
        simp only [List.getD_eq_getElem?_getD, List.getElem?_cons_zero,
          Option.getD_some] at ih ⊢
        simp [ih]

theorem takeWhile_all_append {p : Char → Bool} {xs : JsStr} (y : Char) (ys : JsStr)
    (hxs : ∀ a ∈ xs, p a = true) (hy : p y = false) :
    (xs ++ y :: ys).takeWhile p = xs := by
  induction xs with
  | nil => simp [List.takeWhile_cons, hy]
  | cons x xs ih =>
    simp only [List.cons_append, List.takeWhile_cons, hxs x (by simp)]
    simp [ih (fun a ha => hxs a (by simp [ha]))]

theorem takeWhile_all {p : Char → Bool} {xs : JsStr} (hxs : ∀ a ∈ xs, p a = true) :
    xs.takeWhile p = xs := by
  induction xs with
  | nil => rfl
  | cons x xs ih =>
    simp only [List.takeWhile_cons, hxs x (by simp)]
    simp [ih (fun a ha => hxs a (by simp [ha]))]

/-! ### The verifier: header normalization and correctness -/

/-- The digest-comparison tail of verifyRenderWebhook: compare the computed
hex digest for (secret, rawBody) against a given header-derived value, by the
length check followed by timingSafeEqual of the source.  This is the
comparison the spec describes as running against the header value with the
sha256= prefix stripped. -/
def verifyAgainstValue (secret : JsStr) (rawBody : List Nat) (value : JsStr) : Bool :=
  let digest := hexLower (hmacSha256 (utf8Encode secret) rawBody)
  let a := utf8Encode digest
  let b := utf8Encode value
  if a.length ≠ b.length then false else a == b

theorem getD_set_self {α : Type} {l : List α} {i : Nat} (h : i < l.length) (a d : α) :
    (l.set i a).getD i d = a := by
  rw [List.getD_eq_getElem?_getD, List.getElem?_set_self h]
  rfl

theorem utf8Encode_length_ascii {s : JsStr} (h : ∀ c ∈ s, c.toNat < 128) :
    (utf8Encode s).length = s.length := by
  rw [utf8Encode_ascii h]
  simp

theorem utf8Encode_inj_ascii {s t : JsStr} (hs : ∀ c ∈ s, c.toNat < 128)
    (ht : ∀ c ∈ t, c.toNat < 128) (h : utf8Encode s = utf8Encode t) : s = t := by
  rw [utf8Encode_ascii hs, utf8Encode_ascii ht] at h
  refine List.map_injective_iff.2 (fun a b hab => ?_) h
  have := congrArg Char.ofNat hab
  simpa using this

theorem vav_beq (s : JsStr) (b : List Nat) (v : JsStr) :
    verifyAgainstValue s b v =
      (utf8Encode (hexLower (hmacSha256 (utf8Encode s) b)) == utf8Encode v) := by
  simp only [verifyAgainstValue]
  by_cases h : (utf8Encode (hexLower (hmacSha256 (utf8Encode s) b))).length =
      (utf8Encode v).length
  · simp [h]
  · rw [if_pos h]
    symm
    rw [beq_eq_false_iff_ne]
    intro he
    exact h (by rw [he])

theorem verify_eq_vav (s : JsStr) (b : List Nat) (rest : JsStr) (ct : Option JsStr)
    (hs : s ≠ []) :
    verifyRenderWebhook (some s) ⟨b, some ("sha256=".toList ++ rest), ct⟩ =
      verifyAgainstValue s b (rest.takeWhile (fun c => c != '=')) := by
  have htl : ("sha256=".toList : JsStr) = "sha256".toList ++ ['='] := rfl
  have hne : ("sha256=".toList ++ rest : JsStr) ≠ [] := by
    rw [htl]
    simp
  have hpre : (("sha256=".toList : JsStr)).isPrefixOf ("sha256=".toList ++ rest) = true := by
    rw [List.isPrefixOf_iff_prefix]
    exact List.prefix_append _ _
  have hsplit : (splitOnChar '=' ("sha256=".toList ++ rest)).getD 1 [] =
      rest.takeWhile (fun c => c != '=') := by
    have : ("sha256=".toList ++ rest : JsStr) = "sha256".toList ++ '=' :: rest := by
      rw [htl, List.append_assoc]
      rfl
    rw [this, splitOnChar_append '=' _ rest (by decide)]
    simp only [List.getD_eq_getElem?_getD, List.getElem?_cons_succ, List.getElem?_cons_zero]
    have h0 := splitOnChar_head '=' rest
    simp only [List.getD_eq_getElem?_getD] at h0
    cases h2 : splitOnChar '=' rest with
    | nil => exact absurd h2 (splitOnChar_ne_nil '=' rest)
    | cons cur others =>
      rw [h2] at h0
      simpa using h0
  simp only [verifyRenderWebhook, verifyAgainstValue, Option.getD_some]
  rw [if_neg hs, if_neg hne, if_pos hpre, hsplit]

/-- The hex digest of the current (secret, body) pair, as the verifier computes it. -/
def hexDigestOf (s : JsStr) (b : List Nat) : JsStr :=
  hexLower (hmacSha256 (utf8Encode s) b)

theorem hexDigestOf_no_eq (s : JsStr) (b : List Nat) : '=' ∉ hexDigestOf s b :=
  eq_not_mem_hexLower _

theorem hexDigestOf_ascii (s : JsStr) (b : List Nat) :
    ∀ c ∈ hexDigestOf s b, c.toNat < 128 := fun _ hc => hexLower_ascii hc

theorem hexDigestOf_length (s : JsStr) (b : List Nat) : (hexDigestOf s b).length = 64 := by
  unfold hexDigestOf
  rw [hexLower_length, hmacSha256_length]

theorem vav_digest_true (s : JsStr) (b : List Nat) :
    verifyAgainstValue s b (hexDigestOf s b) = true := by
  rw [vav_beq]
  simp [hexDigestOf]

theorem vav_length_ne_false (s : JsStr) (b : List Nat) (v : JsStr)
    (h : (utf8Encode v).length ≠ 64) : verifyAgainstValue s b v = false := by
  rw [vav_beq, beq_eq_false_iff_ne]
  intro he
  apply h
  rw [← he]
  have h1 : ∀ c ∈ hexLower (hmacSha256 (utf8Encode s) b), c.toNat < 128 :=
    fun _ hc => hexLower_ascii hc
  rw [utf8Encode_length_ascii h1, hexLower_length, hmacSha256_length]

theorem digest_bne_eq (s : JsStr) (b : List Nat) :
    ∀ a ∈ hexDigestOf s b, (a != '=') = true := by
  intro a ha
  simp only [bne_iff_ne, ne_eq]
  intro hEq
  exact hexDigestOf_no_eq s b (hEq ▸ ha)

theorem utf8Encode_middle (xs ys : JsStr) (c : Char) :
    utf8Encode (xs ++ c :: ys) = utf8Encode xs ++ (utf8Char c ++ utf8Encode ys) := by
  simp [utf8Encode]

/-- C1: for every non-empty secret s and body b, the verifier accepts the
correctly signed header sha256= ++ lowercase-hex(HMAC-SHA256(b, s)); changing
any single byte of the header digest makes verification fail, and changing any
single byte of the body makes verification fail whenever the resulting HMAC
digest differs from the original one (the collision-freedom that the
cryptographic hash is relied upon for). -/
theorem c1_verifier_correctness (s : JsStr) (b : List Nat) (ct : Option JsStr)
    (hs : s ≠ []) :
    (verifyRenderWebhook (some s) ⟨b, some (signedHeader s b), ct⟩ = true)
    ∧ (∀ i c, i < 64 → c ≠ (hexDigestOf s b).getD i '0' →
        verifyRenderWebhook (some s)
          ⟨b, some ("sha256=".toList ++ (hexDigestOf s b).set i c), ct⟩ = false)
    ∧ (∀ j v, j < b.length → v ≠ b.getD j 0 →
        hmacSha256 (utf8Encode s) (b.set j v) ≠ hmacSha256 (utf8Encode s) b →
        verifyRenderWebhook (some s) ⟨b.set j v, some (signedHeader s b), ct⟩ = false) := by
  have hfold : ∀ b2 : List Nat, hexLower (hmacSha256 (utf8Encode s) b2) = hexDigestOf s b2 :=
    fun _ => rfl
  refine ⟨?_, ?_, ?_⟩
  · rw [show signedHeader s b = "sha256=".toList ++ hexDigestOf s b from rfl]
    rw [verify_eq_vav s b (hexDigestOf s b) ct hs]
    rw [takeWhile_all (digest_bne_eq s b)]
    exact vav_digest_true s b
  · intro i c hi hc
    rw [verify_eq_vav s b _ ct hs]
    have hlen : (hexDigestOf s b).length = 64 := hexDigestOf_length s b
    have hset : (hexDigestOf s b).set i c =
        (hexDigestOf s b).take i ++ c :: (hexDigestOf s b).drop (i + 1) :=
      List.set_eq_take_cons_drop c (by omega)
    have htake_ascii : ∀ a ∈ (hexDigestOf s b).take i, a.toNat < 128 :=
      fun a ha => hexDigestOf_ascii s b a (List.take_subset _ _ ha)
    have hdrop_ascii : ∀ a ∈ (hexDigestOf s b).drop (i + 1), a.toNat < 128 :=
      fun a ha => hexDigestOf_ascii s b a (List.drop_subset _ _ ha)
    by_cases hceq : c = '='
    · subst hceq
      rw [hset, takeWhile_all_append '=' _
        (fun a ha => digest_bne_eq s b a (List.take_subset _ _ ha)) (by decide)]
      apply vav_length_ne_false
      rw [utf8Encode_length_ascii htake_ascii, List.length_take]
      omega
    · have hnomem : '=' ∉ (hexDigestOf s b).set i c := by
        rw [hset]
        intro hm
        rcases List.mem_append.1 hm with hm | hm
        · exact hexDigestOf_no_eq s b (List.take_subset _ _ hm)
        · rcases List.mem_cons.1 hm with hm0 | hm0
          · exact hceq hm0.symm
          · exact hexDigestOf_no_eq s b (List.drop_subset _ _ hm0)
      have hall : ∀ a ∈ (hexDigestOf s b).set i c, (a != '=') = true := by
        intro a ha
        simp only [bne_iff_ne, ne_eq]
        intro hEq
        exact hnomem (hEq ▸ ha)
      rw [takeWhile_all hall]
      by_cases hascii : c.toNat < 128
      · have hset_ascii : ∀ a ∈ (hexDigestOf s b).set i c, a.toNat < 128 := by
          intro a ha
          rw [hset] at ha
          rcases List.mem_append.1 ha with hm | hm
          · exact htake_ascii a hm
          · rcases List.mem_cons.1 hm with hm0 | hm0
            · exact hm0 ▸ hascii
            · exact hdrop_ascii a hm0
        rw [vav_beq, beq_eq_false_iff_ne]
        intro he
        rw [hfold] at he
        have heq := utf8Encode_inj_ascii (hexDigestOf_ascii s b) hset_ascii he
        have := congrArg (fun l => l.getD i '0') heq
        simp only at this
        rw [getD_set_self (by omega)] at this
        exact hc this.symm
      · apply vav_length_ne_false
        rw [hset, utf8Encode_middle, List.length_append, List.length_append]
        have e1 : (utf8Encode ((hexDigestOf s b).take i)).length = i := by
          rw [utf8Encode_length_ascii htake_ascii, List.length_take]
          omega
        have e2 : (utf8Encode ((hexDigestOf s b).drop (i + 1))).length = 63 - i := by
          rw [utf8Encode_length_ascii hdrop_ascii, List.length_drop]
          omega
        have e3 : 2 ≤ (utf8Char c).length := utf8Char_length_ge hascii
        omega
  · intro j v hj hv hne
    rw [show signedHeader s b = "sha256=".toList ++ hexDigestOf s b from rfl]
    rw [verify_eq_vav _ _ _ ct hs]
    rw [takeWhile_all (digest_bne_eq s b)]
    rw [vav_beq, beq_eq_false_iff_ne]
    intro he
    have h1 := utf8Encode_inj_ascii (fun _ hc => hexLower_ascii hc)
      (hexDigestOf_ascii s b) he
    have h2 := hexLower_inj (hmacSha256_lt _ _) (hmacSha256_lt _ _) h1
    exact hne h2

/-- Witness for C1 at a concrete secret, body, header flip and body flip. -/
theorem c1_verifier_correctness_witness :
    verifyRenderWebhook (some "whsec".toList)
      ⟨[104, 101, 108, 108, 111],
        some (signedHeader "whsec".toList [104, 101, 108, 108, 111]), none⟩ = true
    ∧ verifyRenderWebhook (some "whsec".toList)
      ⟨[104, 101, 108, 108, 111],
        some ("sha256=".toList ++
          (hexDigestOf "whsec".toList [104, 101, 108, 108, 111]).set 0 'z'), none⟩ = false
    ∧ verifyRenderWebhook (some "whsec".toList)
      ⟨[0, 101, 108, 108, 111],
        some (signedHeader "whsec".toList [104, 101, 108, 108, 111]), none⟩ = false := by
  obtain ⟨h1, h2, h3⟩ :=
    c1_verifier_correctness "whsec".toList [104, 101, 108, 108, 111] none (by decide)
  refine ⟨h1, h2 0 'z' (by decide) (by decide), ?_⟩
  exact h3 0 0 (by decide) (by decide) (by decide)

/-- C2 counterexample: the source normalizes the header with split on the
equals sign and takes element 1, which is the segment between the first and
second equals signs, not the full remainder after the sha256= prefix.  For
rest = digest ++ "=x" the code accepts the header (it compares only the part
before the inner equals sign, which is the correct digest), while comparing
against the full remainder rest would reject it. -/
theorem c2_split_normalization_counterexample :
    verifyRenderWebhook (some "whsec".toList)
      ⟨[104, 105],
        some ("sha256=".toList ++
          (hexDigestOf "whsec".toList [104, 105] ++ "=x".toList)), none⟩ = true
    ∧ verifyAgainstValue "whsec".toList [104, 105]
        (hexDigestOf "whsec".toList [104, 105] ++ "=x".toList) = false := by
  constructor
  · decide
  · decide

/-- C2 (amended): for every header of the form sha256= ++ rest, the verifier
compares the computed digest against the segment of rest that precedes the
first equals sign inside rest (split("=")[1]); when rest contains no equals
sign this segment is rest in full, and only then does the comparison target
equal the whole remainder after the prefix. -/
theorem c2_header_normalization (s : JsStr) (b : List Nat) (rest : JsStr)
    (ct : Option JsStr) (hs : s ≠ []) :
    verifyRenderWebhook (some s) ⟨b, some ("sha256=".toList ++ rest), ct⟩ =
      verifyAgainstValue s b (rest.takeWhile (fun c => c != '='))
    ∧ ('=' ∉ rest →
        verifyRenderWebhook (some s) ⟨b, some ("sha256=".toList ++ rest), ct⟩ =
          verifyAgainstValue s b rest) := by
  refine ⟨verify_eq_vav s b rest ct hs, fun hno => ?_⟩
  rw [verify_eq_vav s b rest ct hs]
  rw [takeWhile_all (fun a ha => ?_)]
  simp only [bne_iff_ne, ne_eq]
  intro hEq
  exact hno (hEq ▸ ha)

/-- Witness for C2 (amended) at a concrete secret, body and header remainder. -/
theorem c2_header_normalization_witness :
    (verifyRenderWebhook (some "whsec".toList)
        ⟨[104, 105], some ("sha256=".toList ++ "ab".toList), none⟩ =
      verifyAgainstValue "whsec".toList [104, 105]
        ("ab".toList.takeWhile (fun c => c != '=')))
    ∧ (verifyRenderWebhook (some "whsec".toList)
        ⟨[104, 105], some ("sha256=".toList ++ "ab".toList), none⟩ =
      verifyAgainstValue "whsec".toList [104, 105] "ab".toList) := by
  obtain ⟨h1, h2⟩ :=
    c2_header_normalization "whsec".toList [104, 105] "ab".toList none (by decide)
  exact ⟨h1, h2 (by decide)⟩

/-! ### Discord data model, settings store, channel resolver -/

/-- JavaScript s.includes(needle): substring containment. -/
def jsIncludes (needle : JsStr) : JsStr → Bool
  | [] => needle.isPrefixOf []
  | c :: t => needle.isPrefixOf (c :: t) || jsIncludes needle t

/-- A Discord role as cached by the client. -/
structure Role where
  id : JsStr
  name : JsStr
deriving DecidableEq

/-- A Discord channel as cached by the client.  type follows discord.js
ChannelType (GuildText = 0, GuildCategory = 4); botCanSend models
permissionsFor(guild.members.me).has(SendMessages) and botCanManageWebhooks
models the corresponding ManageWebhooks check. -/
structure Channel where
  id : JsStr
  name : JsStr
  type : Nat
  botCanSend : Bool
  botCanManageWebhooks : Bool
deriving DecidableEq

/-- A guild as seen by the bot: the channel and role caches (iterated in
insertion order), the system channel, whether guild.members.me resolved, and
the permission names the bot member holds. -/
structure Guild where
  id : JsStr
  name : JsStr
  channels : List Channel
  roles : List Role
  systemChannel : Option Channel
  mePresent : Bool
  grantedPerms : List JsStr
deriving DecidableEq

/-- A per-guild settings record with the fields the source reads and writes
(undefined fields are none, as JSON.stringify omits them). -/
structure GuildRecord where
  renderConsoleLogsChannelId : Option JsStr
  botLogChannelId : Option JsStr
deriving DecidableEq

/-- The default record the source creates with guildSettings[id] = {}. -/
def emptyGuildRecord : GuildRecord := ⟨none, none⟩

/-- The in-memory guildSettings object: a key-ordered string map. -/
abbrev SettingsMap := List (JsStr × GuildRecord)

/-- JavaScript property read guildSettings[g]. -/
def settingsLookup : SettingsMap → JsStr → Option GuildRecord
  | [], _ => none
  | p :: rest, g => if p.1 == g then some p.2 else settingsLookup rest g

/-- JavaScript property write guildSettings[g] = r (updates in place, else
appends). -/
def settingsSet : SettingsMap → JsStr → GuildRecord → SettingsMap
  | [], g, r => [(g, r)]
  | p :: rest, g, r => if p.1 == g then (p.1, r) :: rest else p :: settingsSet rest g r

/-- The JSON document stored in data/guildSettings.json, at the value level. -/
inductive Json where
  | null
  | bool (b : Bool)
  | num (n : Int)
  | str (s : JsStr)
  | arr (elems : List Json)
  | obj (fields : List (JsStr × Json))

/-- Field lookup on a JSON object field list. -/
def jsonLookup (fields : List (JsStr × Json)) (k : JsStr) : Option Json :=
  (fields.find? (fun p => p.1 == k)).map (fun p => p.2)

/-- JavaScript property read payload[k] (undefined off objects). -/
def jsonField (j : Json) (k : JsStr) : Option Json :=
  match j with
  | Json.obj fields => jsonLookup fields k
  | _ => none

/-- The string case of a JSON value. -/
def asStr : Json → Option JsStr
  | Json.str s => some s
  | _ => none

/-- JSON.stringify of a GuildRecord (undefined fields omitted). -/
def encodeRecord (r : GuildRecord) : Json :=
  Json.obj
    ((match r.renderConsoleLogsChannelId with
      | some v => [("renderConsoleLogsChannelId".toList, Json.str v)]
      | none => []) ++
     (match r.botLogChannelId with
      | some v => [("botLogChannelId".toList, Json.str v)]
      | none => []))

/-- Reading a GuildRecord back from a parsed JSON value, as the source does by
optional-chained property access (non-objects and missing fields read as
undefined). -/
def decodeRecord (j : Json) : GuildRecord :=
  match j with
  | Json.obj fields =>
    ⟨(jsonLookup fields "renderConsoleLogsChannelId".toList).bind asStr,
     (jsonLookup fields "botLogChannelId".toList).bind asStr⟩
  | _ => ⟨none, none⟩

/-- JSON.stringify of the whole guildSettings map. -/
def encodeSettings (m : SettingsMap) : Json :=
  Json.obj (m.map (fun p => (p.1, encodeRecord p.2)))

/-- JSON.parse of the settings document followed by the property reads the
source performs (a non-object document behaves as an empty map). -/
def decodeSettings (j : Json) : SettingsMap :=
  match j with
  | Json.obj fields => fields.map (fun p => (p.1, decodeRecord p.2))
  | _ => []

/-- The settings-store state: the in-memory map and the durable file contents
(none models a missing or unreadable file). -/
structure StoreState where
  mem : SettingsMap
  file : Option Json

/-- Embedding of persistGuildSettings (src/system-services-bot/index.js, lines
1167-1173): synchronously serialize the entire in-memory map to the backing
file; a write failure is caught and logged, leaving the file unchanged. -/
def persistGuildSettings (writeOk : Bool) (st : StoreState) : StoreState :=
  if writeOk then { st with file := some (encodeSettings st.mem) } else st

/-- Embedding of the startup loader (lines 1157-1166): parse the backing file;
a missing file or a parse failure yields the empty mapping. -/
def loadGuildSettings (file : Option Json) : SettingsMap :=
  match file with
  | some j => decodeSettings j
  | none => []

/-- The settings mutation pattern of the source (performAutoSetup lines
1369-1374, and the settings commands): read the guild record creating the
default if absent, apply the update, store it back in the map, then
persist the entire map.  The source inlines this with concrete updaters;
it is stated generically over the updater f. -/
def mutateGuildSettings (writeOk : Bool) (st : StoreState) (g : JsStr)
    (f : GuildRecord → GuildRecord) : StoreState :=
  let r := (settingsLookup st.mem g).getD emptyGuildRecord
  persistGuildSettings writeOk { st with mem := settingsSet st.mem g (f r) }

/-- ChannelType.GuildText in discord.js v14. -/
def guildText : Nat := 0

/-- The saved-channel check opening findSendableChannel (lines 1232-1238):
the cached renderConsoleLogsChannelId, if it resolves to a text channel the
bot can send to. -/
def savedChannelCheck (settings : SettingsMap) (g : Guild) : Option Channel :=
  match (settingsLookup settings g.id).bind (fun r => r.renderConsoleLogsChannelId) with
  | some saved =>
    match g.channels.find? (fun c => c.id == saved) with
    | some ch => if ch.type == guildText && ch.botCanSend then some ch else none
    | none => none
  | none => none

/-- Embedding of findSendableChannel (lines 1230-1245; the draft at lines
109-118 is identical in behaviour): cached channel first, then the channel
named render-console-logs, then any text channel the bot can send to. -/
def findSendableChannel (settings : SettingsMap) (g : Guild) : Option Channel :=
  match savedChannelCheck settings g with
  | some ch => some ch
  | none =>
    match g.channels.find?
        (fun c => c.name == "render-console-logs".toList && c.type == guildText
          && c.botCanSend) with
    | some ch => some ch
    | none => g.channels.find? (fun c => c.type == guildText && c.botCanSend)

/-- The by-name channel lookups of dispatchRenderEventToGuild (lines
1469-1471): name equality and text type only, with no permission check and no
fallback. -/
def findNamedTextChannel (g : Guild) (nm : JsStr) : Option Channel :=
  g.channels.find? (fun c => c.name == nm && c.type == guildText)

/-! ### C7: settings round-trip durability -/

theorem decodeRecord_encodeRecord (r : GuildRecord) : decodeRecord (encodeRecord r) = r := by
  obtain ⟨o1, o2⟩ := r
  cases o1 <;> cases o2 <;> rfl

theorem decodeSettings_encodeSettings (m : SettingsMap) :
    decodeSettings (encodeSettings m) = m := by
  induction m with
  | nil => rfl
  | cons p rest ih =>
    simp only [encodeSettings, decodeSettings, List.map_cons, List.map_map] at ih ⊢
    rw [List.cons.injEq]
    constructor
    · rw [decodeRecord_encodeRecord]
    · exact ih

theorem settingsLookup_set (m : SettingsMap) (g : JsStr) (r : GuildRecord) :
    settingsLookup (settingsSet m g r) g = some r := by
  induction m with
  | nil => simp [settingsSet, settingsLookup]
  | cons p rest ih =>
    by_cases h : (p.1 == g) = true
    · simp [settingsSet, settingsLookup, h]
    · simp only [settingsSet, settingsLookup]
      rw [if_neg h, settingsLookup, if_neg h]
      exact ih

/-- C7: after applying any updater f to guild g's in-memory record (creating
the default record when absent) and synchronously persisting the whole map, a
fresh load of the backing file yields a map whose record for g is exactly the
updated record. -/
theorem c7_settings_durability (st : StoreState) (g : JsStr)
    (f : GuildRecord → GuildRecord) :
    settingsLookup (loadGuildSettings (mutateGuildSettings true st g f).file) g =
      some (f ((settingsLookup st.mem g).getD emptyGuildRecord)) := by
  simp only [mutateGuildSettings, persistGuildSettings, if_pos, loadGuildSettings]
  rw [decodeSettings_encodeSettings, settingsLookup_set]

/-! ### C3: channel resolution -/

/-- A guild with no settings record, no render-status channel, but one
sendable text channel. -/
def generalCh : Channel := ⟨"100".toList, "general".toList, 0, true, false⟩

/-- A one-channel guild used as the C3 counterexample input. -/
def guildOnlyGeneral : Guild :=
  ⟨"g1".toList, "Guild One".toList, [generalCh], [], none, true, []⟩

/-- C3 counterexample: with no cached ID and no channel named render-status
but a sendable text channel present, the status-class resolution performed by
the dispatcher (a pure name lookup) returns none — it does not fall back to
the sendable channel.  The cascading fallback exists only in
findSendableChannel, which serves the console-logs alias. -/
theorem c3_status_fallback_counterexample :
    (∃ c ∈ guildOnlyGeneral.channels, c.type = guildText ∧ c.botCanSend = true)
    ∧ settingsLookup [] guildOnlyGeneral.id = none
    ∧ findNamedTextChannel guildOnlyGeneral "render-status".toList = none
    ∧ findSendableChannel [] guildOnlyGeneral = some generalCh := by
  refine ⟨⟨generalCh, by decide, by decide, by decide⟩, by decide, by decide, by decide⟩

theorem savedChannelCheck_good {settings : SettingsMap} {g : Guild} {ch : Channel}
    (h : savedChannelCheck settings g = some ch) :
    ch.type = guildText ∧ ch.botCanSend = true := by
  unfold savedChannelCheck at h
  repeat split at h
  all_goals simp_all

/-- C3 (amended): the graceful cascade exists for the console-logs alias:
whenever the guild has at least one sendable text channel, findSendableChannel
returns a sendable text channel (never none), whatever the settings say.  The
status alias, by contrast, is resolved by the dispatcher with a bare name
lookup and yields none when no channel is named render-status; the dispatcher
then falls back to the console-class channel for normal events. -/
theorem c3_resolver_fallback (settings : SettingsMap) (g : Guild) (c0 : Channel)
    (hc0 : c0 ∈ g.channels) (ht : c0.type = guildText) (hs : c0.botCanSend = true) :
    (∃ ch, findSendableChannel settings g = some ch ∧ ch.type = guildText
      ∧ ch.botCanSend = true)
    ∧ ((∀ c ∈ g.channels, ¬(c.name = "render-status".toList ∧ c.type = guildText)) →
        findNamedTextChannel g "render-status".toList = none) := by
  constructor
  · unfold findSendableChannel
    cases h1 : savedChannelCheck settings g with
    | some ch => exact ⟨ch, rfl, (savedChannelCheck_good h1).1, (savedChannelCheck_good h1).2⟩
    | none =>
      cases h2 : g.channels.find?
          (fun c => c.name == "render-console-logs".toList && c.type == guildText
            && c.botCanSend) with
      | some ch =>
        have hp := List.find?_some h2
        simp only [Bool.and_eq_true, beq_iff_eq] at hp
        exact ⟨ch, rfl, hp.1.2, hp.2⟩
      | none =>
        have hex : (g.channels.find? (fun c => c.type == guildText && c.botCanSend)).isSome := by
          rw [List.find?_isSome]
          exact ⟨c0, hc0, by simp [ht, hs]⟩
        obtain ⟨ch, hch⟩ := Option.isSome_iff_exists.1 hex
        have hp := List.find?_some hch
        simp only [Bool.and_eq_true, beq_iff_eq] at hp
        exact ⟨ch, hch, hp.1, hp.2⟩
  · intro hno
    unfold findNamedTextChannel
    rw [List.find?_eq_none]
    intro c hc
    have := hno c hc
    simp only [Bool.and_eq_true, beq_iff_eq, not_and] at this ⊢
    intro hn hty
    exact this hn hty

/-- Witness for C3 (amended) at the concrete one-channel guild. -/
theorem c3_resolver_fallback_witness :
    (∃ ch, findSendableChannel [] guildOnlyGeneral = some ch ∧ ch.type = guildText
      ∧ ch.botCanSend = true)
    ∧ ((∀ c ∈ guildOnlyGeneral.channels,
          ¬(c.name = "render-status".toList ∧ c.type = guildText)) →
        findNamedTextChannel guildOnlyGeneral "render-status".toList = none) :=
  c3_resolver_fallback [] guildOnlyGeneral generalCh (by decide) (by decide) (by decide)

/-! ### The guild provisioner (performAutoSetup) -/

/-- Summaries of the messages the bot sends (embed contents reduced to the
data the spec talks about). -/
inductive Msg where
  | logging (lines : List JsStr)
  | setupEmbed
  | awaitingEmbed
  | renderEmbed (eventType : JsStr) (isError : Bool)
  | renderBlock (lines : List JsStr)
deriving DecidableEq

/-- Observable remote calls issued by the embedding. -/
inductive Effect where
  | webhookCreateCall (channelId : JsStr)
  | categoryCreateCall (name : JsStr)
  | channelCreateCall (name : JsStr)
  | roleCreateCall (name : JsStr)
  | auditFetchCall
  | memberFetchCall (userId : JsStr)
  | roleAddCall
  | persistCall
  | sendCall (channelId : JsStr) (msg : Msg)
deriving DecidableEq

/-- The executor recorded on a BOT_ADD audit-log entry. -/
structure Executor where
  id : JsStr
deriving DecidableEq

/-- Results of the remote Discord calls the provisioner makes: each Except
value is the outcome the remote API would produce (error = the call throws). -/
structure SetupEnv where
  now : JsStr
  webhookCreate : Except JsStr Unit
  categoryCreate : Except JsStr Channel
  channelCreate : JsStr → Except JsStr Channel
  roleCreate : Except JsStr Role
  auditExecutor : Except JsStr (Option Executor)
  memberFetch : Except JsStr JsStr
  roleAdd : Except JsStr Unit
  send : JsStr → Except JsStr Unit
  writeOk : Bool

/-- The observable outcome of one provisioning run: completed is false only
for the early return when guild.members.me is missing; logLines is the audit
block content; effects is the trace of remote calls. -/
structure SetupOutput where
  completed : Bool
  logLines : List JsStr
  created : List (JsStr × Channel)
  managerRole : Option Role
  category : Option Channel
  store : StoreState
  effects : List Effect

/-- The permission names performAutoSetup checks (lines 1294-1300). -/
def reqPerms : List JsStr :=
  ["ManageChannels".toList, "ManageRoles".toList, "ManageWebhooks".toList,
   "SendMessages".toList, "ViewChannel".toList]

/-- The five channels performAutoSetup creates, with their purposes
(lines 1342-1348). -/
def channelsToCreate : List (JsStr × JsStr) :=
  [("render-console-logs".toList, "Detailed formatted logs & startup output".toList),
   ("render-errors".toList, "Render errors & failure events".toList),
   ("render-failed".toList, "Failed deploys & critical alerts".toList),
   ("render-status".toList, "Deploy status & info".toList),
   ("bot-status".toList, "Bot health & awaiting commands messages".toList)]

/-- Embedding of trySendLog (lines 1247-1257): resolve a sendable channel and
send the formatted block, catching a send failure. -/
def trySendLog (env : SetupEnv) (settings : SettingsMap) (g : Guild)
    (lines : List JsStr) : Bool × List Effect :=
  match findSendableChannel settings g with
  | none => (false, [])
  | some ch =>
    match env.send ch.id with
    | Except.ok _ => (true, [Effect.sendCall ch.id (Msg.logging lines)])
    | Except.error _ => (false, [Effect.sendCall ch.id (Msg.logging lines)])

/-- The webhook target selection of performAutoSetup (lines 1308-1311):
the system channel, else the first text channel where the bot may manage
webhooks. -/
def systemChannelOf (g : Guild) : Option Channel :=
  match g.systemChannel with
  | some ch => some ch
  | none => g.channels.find? (fun c => c.type == guildText && c.botCanManageWebhooks)

/-- The webhook-creation step (lines 1312-1321). -/
def webhookStep (env : SetupEnv) (g : Guild) : List JsStr × List Effect :=
  match systemChannelOf g with
  | some ch =>
    match env.webhookCreate with
    | Except.ok _ =>
      (["Created webhook \"System Services\" in channel ".toList ++ ch.name],
       [Effect.webhookCreateCall ch.id])
    | Except.error e =>
      (["Failed to create webhook in ".toList ++ ch.name ++ ": ".toList ++ e],
       [Effect.webhookCreateCall ch.id])
  | none => (["No suitable channel to create webhook.".toList], [])

/-- The channel-creation loop (lines 1350-1367): each creation is attempted
independently; a failure is logged and the loop continues. -/
def createChannelsLoop (env : SetupEnv) :
    List (JsStr × JsStr) → List (JsStr × Channel) × List JsStr × List Effect
  | [] => ([], [], [])
  | spec :: rest =>
    match env.channelCreate spec.1 with
    | Except.ok ch =>
      let acc := createChannelsLoop env rest
      ((spec.1, ch) :: acc.1,
       ("Created channel: ".toList ++ spec.1 ++ " (".toList ++ spec.2 ++ ")".toList) :: acc.2.1,
       Effect.channelCreateCall spec.1 :: acc.2.2)
    | Except.error e =>
      let acc := createChannelsLoop env rest
      (acc.1,
       ("Failed to create channel ".toList ++ spec.1 ++ ": ".toList ++ e) :: acc.2.1,
       Effect.channelCreateCall spec.1 :: acc.2.2)

/-- Lookup in the created-channels record of the run. -/
def createdLookup (created : List (JsStr × Channel)) (nm : JsStr) : Option Channel :=
  (created.find? (fun p => p.1 == nm)).map (fun p => p.2)

/-- The role step (lines 1377-1392): reuse the role named System Services
Manager when the cache has one, else attempt creation. -/
def roleStep (env : SetupEnv) (g : Guild) : Option Role × List JsStr × List Effect :=
  match g.roles.find? (fun r => r.name == "System Services Manager".toList) with
  | some r => (some r, ["Manager role already exists: ".toList ++ r.id], [])
  | none =>
    match env.roleCreate with
    | Except.ok r =>
      (some r, ["Created role: System Services Manager (Administrator)".toList],
       [Effect.roleCreateCall "System Services Manager".toList])
    | Except.error e =>
      (none, ["Failed to create manager role: ".toList ++ e],
       [Effect.roleCreateCall "System Services Manager".toList])

/-- The audit-log role assignment step (lines 1394-1416), with the outer and
inner try/catch translated to matches. -/
def auditStep (env : SetupEnv) (managerRole : Option Role) : List JsStr × List Effect :=
  match env.auditExecutor with
  | Except.error e => (["Error fetching audit logs: ".toList ++ e], [Effect.auditFetchCall])
  | Except.ok none =>
    (["No BOT_ADD audit log entry found; could not auto-assign role.".toList],
     [Effect.auditFetchCall])
  | Except.ok (some ex) =>
    match env.memberFetch with
    | Except.error e =>
      (["Failed to assign role to adder (".toList ++ ex.id ++ "): ".toList ++ e],
       [Effect.auditFetchCall, Effect.memberFetchCall ex.id])
    | Except.ok tag =>
      match managerRole with
      | none =>
        (["Could not assign role — member or manager role missing.".toList],
         [Effect.auditFetchCall, Effect.memberFetchCall ex.id])
      | some _ =>
        match env.roleAdd with
        | Except.ok _ =>
          (["Assigned role to ".toList ++ tag],
           [Effect.auditFetchCall, Effect.memberFetchCall ex.id, Effect.roleAddCall])
        | Except.error e =>
          (["Failed to assign role to adder (".toList ++ ex.id ++ "): ".toList ++ e],
           [Effect.auditFetchCall, Effect.memberFetchCall ex.id, Effect.roleAddCall])

/-- The warning trySendLog of the permission check (lines 1301-1305). -/
def permEffsOf (env : SetupEnv) (settings : SettingsMap) (g : Guild)
    (missing : List JsStr) (lines : List JsStr) : List Effect :=
  if missing.isEmpty then [] else (trySendLog env settings g lines).2

/-- The persist side effect of a successful render-console-logs creation
(lines 1370-1374). -/
def persistEffsOf (created : List (JsStr × Channel)) : List Effect :=
  match createdLookup created "render-console-logs".toList with
  | some _ => [Effect.persistCall]
  | none => []

/-- The setup-summary posting (lines 1419-1440): embed then audit block in one
try, so the block is sent only when the embed send succeeded. -/
def summaryEffsOf (env : SetupEnv) (target : Option Channel) (lines : List JsStr) :
    List Effect :=
  match target with
  | some ch =>
    match env.send ch.id with
    | Except.ok _ => [Effect.sendCall ch.id Msg.setupEmbed,
                      Effect.sendCall ch.id (Msg.logging lines)]
    | Except.error _ => [Effect.sendCall ch.id Msg.setupEmbed]
  | none => []

/-- A single guarded send (the Awaiting Commands embed, lines 1443-1461). -/
def sendOnce (target : Option Channel) (msg : Msg) : List Effect :=
  match target with
  | some ch => [Effect.sendCall ch.id msg]
  | none => []

/-- Embedding of performAutoSetup (src/system-services-bot/index.js, lines
1279-1464; the shorter draft at lines 147-237 follows the same structure):
permission check, webhook, category, channels, settings persist, role, audit
assignment, summary posting.  Every remote call is attempted through the
environment and every try/catch of the source is an explicit match, so the
function is total: no step outcome can abort the remaining steps. -/
def performAutoSetup (env : SetupEnv) (st : StoreState) (g : Guild) : SetupOutput :=
  let logLines0 := ["Guild Name: ".toList ++ g.name, "Guild ID: ".toList ++ g.id,
                    "Timestamp: ".toList ++ env.now]
  if g.mePresent then
    let missingPerms := reqPerms.filter (fun p => !(g.grantedPerms.contains p))
    let logLines1 := logLines0 ++
      (if missingPerms.isEmpty then [] else
        ["Warning: Bot may be missing required permissions: ".toList ++
          List.intercalate ", ".toList missingPerms])
    let permEffs := permEffsOf env st.mem g missingPerms logLines1
    let wh := webhookStep env g
    let category : Option Channel :=
      match env.categoryCreate with
      | Except.ok ch => some ch
      | Except.error _ => none
    let catLines :=
      match env.categoryCreate with
      | Except.ok _ => ["Created category: System Services Status".toList]
      | Except.error e => ["Failed to create category: ".toList ++ e]
    let catEffs := [Effect.categoryCreateCall "System Services Status".toList]
    let loop := createChannelsLoop env channelsToCreate
    let created := loop.1
    let logLines2 := logLines1 ++ wh.1 ++ catLines ++ loop.2.1
    let st1 :=
      match createdLookup created "render-console-logs".toList with
      | some ch =>
        let old := (settingsLookup st.mem g.id).getD emptyGuildRecord
        let upd := { old with renderConsoleLogsChannelId := some ch.id }
        persistGuildSettings env.writeOk { st with mem := (settingsSet st.mem g.id upd) }
      | none => st
    let persistEffs := persistEffsOf created
    let role := roleStep env g
    let audit := auditStep env role.1
    let logLines3 := logLines2 ++ role.2.1 ++ audit.1
    let gUpd := { g with channels := g.channels ++
      (match env.categoryCreate with
       | Except.ok ch => [ch]
       | Except.error _ => []) ++ created.map (fun p => p.2) }
    let primaryLog :=
      match createdLookup created "render-console-logs".toList with
      | some ch => some ch
      | none => findSendableChannel st1.mem gUpd
    let summaryEffs := summaryEffsOf env primaryLog logLines3
    let statusTarget :=
      match createdLookup created "bot-status".toList with
      | some ch => some ch
      | none => findSendableChannel st1.mem gUpd
    let statusEffs := sendOnce statusTarget Msg.awaitingEmbed
    { completed := true, logLines := logLines3, created := created,
      managerRole := role.1, category := category, store := st1,
      effects := permEffs ++ wh.2 ++ catEffs ++ loop.2.2 ++ persistEffs
        ++ role.2.2 ++ audit.2 ++ summaryEffs ++ statusEffs }
  else
    let lines := logLines0 ++ ["Failed to get bot member info; aborting setup.".toList]
    { completed := false, logLines := lines, created := [], managerRole := none,
      category := none, store := st, effects := (trySendLog env st.mem g lines).2 }

/-! ### C4, C5: provisioning properties -/

theorem createChannelsLoop_effects (env : SetupEnv) (specs : List (JsStr × JsStr)) :
    ∀ spec ∈ specs, Effect.channelCreateCall spec.1 ∈ (createChannelsLoop env specs).2.2 := by
  induction specs with
  | nil => simp
  | cons s rest ih =>
    intro spec hspec
    rcases List.mem_cons.1 hspec with h | h
    · subst h
      cases hc : env.channelCreate spec.1 <;> simp [createChannelsLoop, hc]
    · have hmem := ih spec h
      cases hc : env.channelCreate s.1 <;>
        (simp only [createChannelsLoop, hc]; exact List.mem_cons_of_mem _ hmem)

theorem createChannelsLoop_line_ok (env : SetupEnv) (specs : List (JsStr × JsStr)) :
    ∀ spec ∈ specs, ∀ ch, env.channelCreate spec.1 = Except.ok ch →
    ("Created channel: ".toList ++ spec.1 ++ " (".toList ++ spec.2 ++ ")".toList)
      ∈ (createChannelsLoop env specs).2.1 := by
  induction specs with
  | nil => simp
  | cons s rest ih =>
    intro spec hspec ch hch
    rcases List.mem_cons.1 hspec with h | h
    · subst h
      simp [createChannelsLoop, hch]
    · have hmem := ih spec h ch hch
      cases hc : env.channelCreate s.1 <;>
        (simp only [createChannelsLoop, hc]; exact List.mem_cons_of_mem _ hmem)

theorem createChannelsLoop_line_err (env : SetupEnv) (specs : List (JsStr × JsStr)) :
    ∀ spec ∈ specs, ∀ e, env.channelCreate spec.1 = Except.error e →
    ("Failed to create channel ".toList ++ spec.1 ++ ": ".toList ++ e)
      ∈ (createChannelsLoop env specs).2.1 := by
  induction specs with
  | nil => simp
  | cons s rest ih =>
    intro spec hspec e he
    rcases List.mem_cons.1 hspec with h | h
    · subst h
      simp [createChannelsLoop, he]
    · have hmem := ih spec h e he
      cases hc : env.channelCreate s.1 <;>
        (simp only [createChannelsLoop, hc]; exact List.mem_cons_of_mem _ hmem)

theorem createChannelsLoop_no_roleCreate (env : SetupEnv) (specs : List (JsStr × JsStr))
    (nm : JsStr) : Effect.roleCreateCall nm ∉ (createChannelsLoop env specs).2.2 := by
  induction specs with
  | nil => simp [createChannelsLoop]
  | cons s rest ih =>
    cases hc : env.channelCreate s.1 <;>
      (simp only [createChannelsLoop, hc, List.mem_cons]; rintro (h | h)
       · exact absurd h (by simp)
       · exact ih h)

theorem trySendLog_no_roleCreate (env : SetupEnv) (settings : SettingsMap) (g : Guild)
    (lines : List JsStr) (nm : JsStr) :
    Effect.roleCreateCall nm ∉ (trySendLog env settings g lines).2 := by
  unfold trySendLog
  cases findSendableChannel settings g with
  | none => simp
  | some ch => cases h2 : env.send ch.id <;> simp [h2]

theorem webhookStep_no_roleCreate (env : SetupEnv) (g : Guild) (nm : JsStr) :
    Effect.roleCreateCall nm ∉ (webhookStep env g).2 := by
  unfold webhookStep
  cases systemChannelOf g with
  | none => simp
  | some ch => cases h2 : env.webhookCreate <;> simp [h2]

theorem auditStep_no_roleCreate (env : SetupEnv) (mr : Option Role) (nm : JsStr) :
    Effect.roleCreateCall nm ∉ (auditStep env mr).2 := by
  unfold auditStep
  cases h1 : env.auditExecutor with
  | error e => simp [h1]
  | ok oex =>
    cases oex with
    | none => simp [h1]
    | some ex =>
      cases h2 : env.memberFetch with
      | error e => simp [h1, h2]
      | ok tag =>
        cases mr with
        | none => simp [h1, h2]
        | some r => cases h3 : env.roleAdd <;> simp [h1, h2, h3]

theorem permEffsOf_no_roleCreate (env : SetupEnv) (settings : SettingsMap) (g : Guild)
    (missing lines : List JsStr) (nm : JsStr) :
    Effect.roleCreateCall nm ∉ permEffsOf env settings g missing lines := by
  unfold permEffsOf
  split
  · simp
  · exact trySendLog_no_roleCreate env settings g lines nm

theorem persistEffsOf_no_roleCreate (created : List (JsStr × Channel)) (nm : JsStr) :
    Effect.roleCreateCall nm ∉ persistEffsOf created := by
  unfold persistEffsOf
  split <;> simp

theorem summaryEffsOf_no_roleCreate (env : SetupEnv) (target : Option Channel)
    (lines : List JsStr) (nm : JsStr) :
    Effect.roleCreateCall nm ∉ summaryEffsOf env target lines := by
  unfold summaryEffsOf
  cases target with
  | none => simp
  | some ch => cases h2 : env.send ch.id <;> simp [h2]

theorem sendOnce_no_roleCreate (target : Option Channel) (msg : Msg) (nm : JsStr) :
    Effect.roleCreateCall nm ∉ sendOnce target msg := by
  unfold sendOnce
  cases target <;> simp

theorem auditStep_has_fetch (env : SetupEnv) (mr : Option Role) :
    Effect.auditFetchCall ∈ (auditStep env mr).2 := by
  unfold auditStep
  cases h1 : env.auditExecutor with
  | error e => simp [h1]
  | ok oex =>
    cases oex with
    | none => simp [h1]
    | some ex =>
      cases h2 : env.memberFetch with
      | error e => simp [h1, h2]
      | ok tag =>
        cases mr with
        | none => simp [h1, h2]
        | some r => cases h3 : env.roleAdd <;> simp [h1, h2, h3]

theorem roleStep_none_effect (env : SetupEnv) (g : Guild)
    (h : g.roles.find? (fun r => r.name == "System Services Manager".toList) = none) :
    Effect.roleCreateCall "System Services Manager".toList ∈ (roleStep env g).2.2 := by
  unfold roleStep
  rw [h]
  cases env.roleCreate <;> simp

theorem roleStep_existing (env : SetupEnv) (g : Guild) (r0 : Role)
    (h : g.roles.find? (fun r => r.name == "System Services Manager".toList) = some r0) :
    roleStep env g = (some r0, ["Manager role already exists: ".toList ++ r0.id], []) := by
  unfold roleStep
  rw [h]

/-- C4: with the bot member resolvable, provisioning completes for every
pattern of individual step outcomes: no step failure aborts the run, every
channel creation and the category creation are attempted, role creation is
attempted when no manager role exists, the audit-log assignment step still
runs, and the final audit block lists a line for each failed channel step
alongside a line for each success. -/
theorem c4_partial_failure_containment (env : SetupEnv) (st : StoreState) (g : Guild)
    (hme : g.mePresent = true) :
    (performAutoSetup env st g).completed = true
    ∧ Effect.categoryCreateCall "System Services Status".toList
        ∈ (performAutoSetup env st g).effects
    ∧ (∀ spec ∈ channelsToCreate,
        Effect.channelCreateCall spec.1 ∈ (performAutoSetup env st g).effects)
    ∧ (g.roles.find? (fun r => r.name == "System Services Manager".toList) = none →
        Effect.roleCreateCall "System Services Manager".toList
          ∈ (performAutoSetup env st g).effects)
    ∧ Effect.auditFetchCall ∈ (performAutoSetup env st g).effects
    ∧ (∀ spec ∈ channelsToCreate, ∀ e, env.channelCreate spec.1 = Except.error e →
        ("Failed to create channel ".toList ++ spec.1 ++ ": ".toList ++ e)
          ∈ (performAutoSetup env st g).logLines)
    ∧ (∀ spec ∈ channelsToCreate, ∀ ch, env.channelCreate spec.1 = Except.ok ch →
        ("Created channel: ".toList ++ spec.1 ++ " (".toList ++ spec.2 ++ ")".toList)
          ∈ (performAutoSetup env st g).logLines) := by
  simp only [performAutoSetup, hme, if_true]
  refine ⟨trivial, ?_, ?_, ?_, ?_, ?_, ?_⟩
  · have h : Effect.categoryCreateCall "System Services Status".toList
        ∈ [Effect.categoryCreateCall "System Services Status".toList] :=
      List.mem_singleton_self _
    simp only [List.mem_append]
    tauto
  · intro spec hspec
    have h := createChannelsLoop_effects env channelsToCreate spec hspec
    simp only [List.mem_append]
    tauto
  · intro hnone
    have h := roleStep_none_effect env g hnone
    simp only [List.mem_append]
    tauto
  · have h := auditStep_has_fetch env (roleStep env g).1
    simp only [List.mem_append]
    tauto
  · intro spec hspec e he
    have h := createChannelsLoop_line_err env channelsToCreate spec hspec e he
    simp only [List.mem_append]
    tauto
  · intro spec hspec ch hch
    have h := createChannelsLoop_line_ok env channelsToCreate spec hspec ch hch
    simp only [List.mem_append]
    tauto

/-- C5: when the role cache already holds a role named System Services
Manager, provisioning reuses it: the result references the existing role, no
role-creation call is issued, and the audit block records the reuse. -/
theorem c5_idempotent_role (env : SetupEnv) (st : StoreState) (g : Guild) (r0 : Role)
    (hme : g.mePresent = true)
    (hrole : g.roles.find? (fun r => r.name == "System Services Manager".toList) = some r0) :
    (performAutoSetup env st g).managerRole = some r0
    ∧ Effect.roleCreateCall "System Services Manager".toList
        ∉ (performAutoSetup env st g).effects
    ∧ ("Manager role already exists: ".toList ++ r0.id)
        ∈ (performAutoSetup env st g).logLines := by
  have hrs := roleStep_existing env g r0 hrole
  simp only [performAutoSetup, hme, if_true]
  refine ⟨?_, ?_, ?_⟩
  · rw [hrs]
  · rw [hrs]
    simp [List.mem_append, permEffsOf_no_roleCreate, webhookStep_no_roleCreate,
      createChannelsLoop_no_roleCreate, persistEffsOf_no_roleCreate,
      summaryEffsOf_no_roleCreate, sendOnce_no_roleCreate, auditStep_no_roleCreate]
  · rw [hrs]
    have h : ("Manager role already exists: ".toList ++ r0.id)
        ∈ ["Manager role already exists: ".toList ++ r0.id] := List.mem_singleton_self _
    simp only [List.mem_append]
    tauto

/-- A successfully-created text channel used by the concrete setup runs. -/
def chFor (nm : JsStr) : Channel := ⟨nm ++ "-id".toList, nm, 0, true, true⟩

/-- A concrete environment where creating render-errors throws and every other
call succeeds. -/
def envErrorsFail : SetupEnv :=
  { now := "2024-01-01T00:00:00.000Z".toList
  , webhookCreate := Except.ok ()
  , categoryCreate := Except.ok ⟨"cat-id".toList, "System Services Status".toList, 4, false, false⟩
  , channelCreate := fun nm =>
      if nm == "render-errors".toList then Except.error "Missing Permissions".toList
      else Except.ok (chFor nm)
  , roleCreate := Except.ok ⟨"role-id".toList, "System Services Manager".toList⟩
  , auditExecutor := Except.ok (some ⟨"user-1".toList⟩)
  , memberFetch := Except.ok "User#0001".toList
  , roleAdd := Except.ok ()
  , send := fun _ => Except.ok ()
  , writeOk := true }

/-- An empty settings store. -/
def store0 : StoreState := ⟨[], none⟩

/-- A bare guild with the bot member present and no roles or channels. -/
def guildBare : Guild := ⟨"g1".toList, "Guild One".toList, [], [], none, true, reqPerms⟩

/-- Witness for C4: with render-errors failing and the other channels
succeeding, the run completes, attempts everything, and the audit block holds
the one failure line beside a success line. -/
theorem c4_partial_failure_containment_witness :
    (performAutoSetup envErrorsFail store0 guildBare).completed = true
    ∧ Effect.channelCreateCall "render-errors".toList
        ∈ (performAutoSetup envErrorsFail store0 guildBare).effects
    ∧ Effect.roleCreateCall "System Services Manager".toList
        ∈ (performAutoSetup envErrorsFail store0 guildBare).effects
    ∧ ("Failed to create channel ".toList ++ "render-errors".toList ++ ": ".toList
        ++ "Missing Permissions".toList)
        ∈ (performAutoSetup envErrorsFail store0 guildBare).logLines
    ∧ ("Created channel: ".toList ++ "render-status".toList ++ " (".toList
        ++ "Deploy status & info".toList ++ ")".toList)
        ∈ (performAutoSetup envErrorsFail store0 guildBare).logLines := by
  obtain ⟨h1, h2, h3, h4, h5, h6, h7⟩ :=
    c4_partial_failure_containment envErrorsFail store0 guildBare (by decide)
  refine ⟨h1, ?_, ?_, ?_, ?_⟩
  · exact h3 ("render-errors".toList, "Render errors & failure events".toList) (by decide)
  · exact h4 (by decide)
  · exact h6 ("render-errors".toList, "Render errors & failure events".toList) (by decide)
      "Missing Permissions".toList (by rfl)
  · exact h7 ("render-status".toList, "Deploy status & info".toList) (by decide)
      (chFor "render-status".toList) (by rfl)

/-- The pre-existing manager role of the C5 witness guild. -/
def existingManagerRole : Role := ⟨"role-77".toList, "System Services Manager".toList⟩

/-- A guild whose role cache already holds the manager role. -/
def guildWithRole : Guild :=
  ⟨"g2".toList, "Guild Two".toList, [], [existingManagerRole], none, true, reqPerms⟩

/-- Witness for C5 at a guild that already has the manager role. -/
theorem c5_idempotent_role_witness :
    (performAutoSetup envErrorsFail store0 guildWithRole).managerRole
        = some existingManagerRole
    ∧ Effect.roleCreateCall "System Services Manager".toList
        ∉ (performAutoSetup envErrorsFail store0 guildWithRole).effects
    ∧ ("Manager role already exists: ".toList ++ existingManagerRole.id)
        ∈ (performAutoSetup envErrorsFail store0 guildWithRole).logLines :=
  c5_idempotent_role envErrorsFail store0 guildWithRole existingManagerRole
    (by decide) (by decide)

/-! ### The event dispatcher (dispatchRenderEventToGuild) -/

/-- ASCII lowercasing of one character, as toLowerCase acts on the ASCII range. -/
def asciiLowerChar (c : Char) : Char :=
  if 'A' ≤ c && c ≤ 'Z' then Char.ofNat (c.toNat + 32) else c

/-- ASCII lowercasing of a string. -/
def asciiLower (s : JsStr) : JsStr := s.map asciiLowerChar

/-- JavaScript truthiness of a JSON value. -/
def jsTruthy : Json → Bool
  | Json.null => false
  | Json.bool b => b
  | Json.num n => n != 0
  | Json.str s => !s.isEmpty
  | Json.arr _ => true
  | Json.obj _ => true

/-- The failure classification of line 1483: the lowercased event type
contains fail, error or crash. -/
def isErrorEvent (t : JsStr) : Bool :=
  jsIncludes "fail".toList (asciiLower t) || jsIncludes "error".toList (asciiLower t)
    || jsIncludes "crash".toList (asciiLower t)

/-- The event-type computation of lines 1473 and 1483: payload.type with
falsy values replaced by unknown, then toLowerCase — which throws when the
type field holds a truthy non-string. -/
def classifyEvent (payload : Json) : Except JsStr (JsStr × Bool) :=
  let eventTypeJs : Json :=
    match jsonField payload "type".toList with
    | some v => if jsTruthy v then v else Json.str "unknown".toList
    | none => Json.str "unknown".toList
  match eventTypeJs with
  | Json.str t => Except.ok (t, isErrorEvent t)
  | _ => Except.error "eventType.toLowerCase is not a function".toList

mutual

/-- Stringification used in template literals for the audit block values. -/
def jsonDisplay : Json → JsStr
  | Json.null => "null".toList
  | Json.bool b => if b then "true".toList else "false".toList
  | Json.num n => (toString n).toList
  | Json.str s => s
  | Json.arr elems => List.intercalate ",".toList (jsonDisplayList elems)
  | Json.obj _ => "[object Object]".toList

/-- Stringification of a list of JSON values. -/
def jsonDisplayList : List Json → List JsStr
  | [] => []
  | j :: rest => jsonDisplay j :: jsonDisplayList rest

end

/-- The plain-text audit block content of lines 1513-1519: event type, service
ID if present (with the N/A fallback), timestamp (falling back to the current
time). -/
def renderBlockLines (t : JsStr) (payload : Json) (nowTs : JsStr) : List JsStr :=
  let svc :=
    match (jsonField payload "data".toList).bind (fun d => jsonField d "serviceId".toList) with
    | some v => if jsTruthy v then jsonDisplay v else "N/A".toList
    | none => "N/A".toList
  let ts :=
    match jsonField payload "timestamp".toList with
    | some v => if jsTruthy v then jsonDisplay v else nowTs
    | none => nowTs
  ["Event: ".toList ++ t, "Service ID: ".toList ++ svc, "Timestamp: ".toList ++ ts]

/-- The primary routing choice of lines 1504-1510: failure events prefer the
error channel then the status channel; normal events prefer the status channel
then the console channel. -/
def primaryTargetOf (g : Guild) (isErr : Bool) : Option Channel :=
  if isErr then
    match findNamedTextChannel g "render-errors".toList with
    | some ch => some ch
    | none => findNamedTextChannel g "render-status".toList
  else
    match findNamedTextChannel g "render-status".toList with
    | some ch => some ch
    | none => findNamedTextChannel g "render-console-logs".toList

/-- The console audit-block send of lines 1513-1519, following a successful
primary step inside the same try: a throwing send is caught at function level
after the attempt is recorded. -/
def consoleBlockStep (send : JsStr → Except JsStr Unit) (console : Option Channel)
    (t : JsStr) (payload : Json) (nowTs : JsStr) (effs0 : List Effect) :
    Bool × List Effect :=
  match console with
  | none => (true, effs0)
  | some cch =>
    match send cch.id with
    | Except.ok _ =>
      (true, effs0 ++ [Effect.sendCall cch.id (Msg.renderBlock (renderBlockLines t payload nowTs))])
    | Except.error _ =>
      (false, effs0 ++ [Effect.sendCall cch.id (Msg.renderBlock (renderBlockLines t payload nowTs))])

/-- Embedding of dispatchRenderEventToGuild (src/system-services-bot/index.js,
lines 1467-1526; the draft at lines 377-428 differs only by an extra
bot-status send).  The whole body sits in one try/catch: a throwing step
aborts the rest of the dispatch for this guild and yields false. -/
def dispatchRenderEventToGuild (send : JsStr → Except JsStr Unit) (nowTs : JsStr)
    (g : Guild) (payload : Json) : Bool × List Effect :=
  match classifyEvent payload with
  | Except.error _ => (false, [])
  | Except.ok (t, isErr) =>
    let console := findNamedTextChannel g "render-console-logs".toList
    match primaryTargetOf g isErr with
    | none => consoleBlockStep send console t payload nowTs []
    | some ch =>
      match send ch.id with
      | Except.error _ => (false, [Effect.sendCall ch.id (Msg.renderEmbed t isErr)])
      | Except.ok _ =>
        consoleBlockStep send console t payload nowTs
          [Effect.sendCall ch.id (Msg.renderEmbed t isErr)]

/-! ### C8, C9: dispatcher routing and the console audit trail -/

theorem consoleBlockStep_head (send : JsStr → Except JsStr Unit) (console : Option Channel)
    (t : JsStr) (payload : Json) (nowTs : JsStr) (e0 : Effect) (rest : List Effect) :
    (consoleBlockStep send console t payload nowTs (e0 :: rest)).2.head? = some e0 := by
  unfold consoleBlockStep
  cases console with
  | none => simp
  | some cch => cases h : send cch.id <;> simp [h]

/-- C9: routing of the primary message.  A failure-classified event is sent to
the error-class channel when one exists, else to the status-class channel; a
normal event is sent to the status-class channel when one exists, else to the
console-class channel: the first remote send of the dispatch goes to that
target with the event embed. -/
theorem c9_dispatcher_classification (send : JsStr → Except JsStr Unit) (nowTs : JsStr)
    (g : Guild) (payload : Json) (t : JsStr)
    (hc : classifyEvent payload = Except.ok (t, isErrorEvent t)) :
    (isErrorEvent t = true →
      (∀ ech, findNamedTextChannel g "render-errors".toList = some ech →
        (dispatchRenderEventToGuild send nowTs g payload).2.head? =
          some (Effect.sendCall ech.id (Msg.renderEmbed t true)))
      ∧ (findNamedTextChannel g "render-errors".toList = none →
        ∀ sch, findNamedTextChannel g "render-status".toList = some sch →
        (dispatchRenderEventToGuild send nowTs g payload).2.head? =
          some (Effect.sendCall sch.id (Msg.renderEmbed t true))))
    ∧ (isErrorEvent t = false →
      (∀ sch, findNamedTextChannel g "render-status".toList = some sch →
        (dispatchRenderEventToGuild send nowTs g payload).2.head? =
          some (Effect.sendCall sch.id (Msg.renderEmbed t false)))
      ∧ (findNamedTextChannel g "render-status".toList = none →
        ∀ cch, findNamedTextChannel g "render-console-logs".toList = some cch →
        (dispatchRenderEventToGuild send nowTs g payload).2.head? =
          some (Effect.sendCall cch.id (Msg.renderEmbed t false)))) := by
  constructor
  · intro hisErr
    constructor
    · intro ech hech
      have hpt : primaryTargetOf g (isErrorEvent t) = some ech := by
        unfold primaryTargetOf
        rw [hisErr, if_pos rfl, hech]
      simp only [dispatchRenderEventToGuild, hc, hpt]
      cases hsend : send ech.id with
      | ok u => simp [hsend, consoleBlockStep_head, hisErr]
      | error e => simp [hsend, hisErr]
    · intro hnone sch hsch
      have hpt : primaryTargetOf g (isErrorEvent t) = some sch := by
        unfold primaryTargetOf
        rw [hisErr, if_pos rfl, hnone, hsch]
      simp only [dispatchRenderEventToGuild, hc, hpt]
      cases hsend : send sch.id with
      | ok u => simp [hsend, consoleBlockStep_head, hisErr]
      | error e => simp [hsend, hisErr]
  · intro hisErr
    constructor
    · intro sch hsch
      have hpt : primaryTargetOf g (isErrorEvent t) = some sch := by
        have hne : ¬((false : Bool) = true) := by decide
        unfold primaryTargetOf
        rw [hisErr, if_neg hne, hsch]
      simp only [dispatchRenderEventToGuild, hc, hpt]
      cases hsend : send sch.id with
      | ok u => simp [hsend, consoleBlockStep_head, hisErr]
      | error e => simp [hsend, hisErr]
    · intro hnone cch hcch
      have hpt : primaryTargetOf g (isErrorEvent t) = some cch := by
        have hne : ¬((false : Bool) = true) := by decide
        unfold primaryTargetOf
        rw [hisErr, if_neg hne, hnone, hcch]
      simp only [dispatchRenderEventToGuild, hc, hpt]
      cases hsend : send cch.id with
      | ok u => simp [hsend, consoleBlockStep_head, hisErr]
      | error e => simp [hsend, hisErr]

/-- The error-class channel of the concrete dispatch guild. -/
def errCh : Channel := ⟨"err-id".toList, "render-errors".toList, 0, true, false⟩

/-- The console-class channel of the concrete dispatch guild. -/
def consoleCh : Channel := ⟨"con-id".toList, "render-console-logs".toList, 0, true, false⟩

/-- The status-class channel of the concrete dispatch guild. -/
def statusCh : Channel := ⟨"status-id".toList, "render-status".toList, 0, true, false⟩

/-- A guild holding console, error and status channels. -/
def guildFull : Guild :=
  ⟨"g3".toList, "Guild Three".toList, [consoleCh, errCh, statusCh], [], none, true, reqPerms⟩

/-- A payload with event type deploy_failed. -/
def payloadFailed : Json := Json.obj [("type".toList, Json.str "deploy_failed".toList)]

/-- A payload with event type deploy_live. -/
def payloadLive : Json := Json.obj [("type".toList, Json.str "deploy_live".toList)]

/-- Witness for C9: deploy_failed routes to the error channel, deploy_live to
the status channel. -/
theorem c9_dispatcher_classification_witness :
    (dispatchRenderEventToGuild (fun _ => Except.ok ()) "t0".toList guildFull
        payloadFailed).2.head? =
      some (Effect.sendCall errCh.id (Msg.renderEmbed "deploy_failed".toList true))
    ∧ (dispatchRenderEventToGuild (fun _ => Except.ok ()) "t0".toList guildFull
        payloadLive).2.head? =
      some (Effect.sendCall statusCh.id (Msg.renderEmbed "deploy_live".toList false)) := by
  constructor
  · exact (((c9_dispatcher_classification (fun _ => Except.ok ()) "t0".toList guildFull
      payloadFailed "deploy_failed".toList (by rfl)).1 (by decide)).1 errCh (by rfl))
  · exact (((c9_dispatcher_classification (fun _ => Except.ok ()) "t0".toList guildFull
      payloadLive "deploy_live".toList (by rfl)).2 (by decide)).1 statusCh (by rfl))

/-- A send environment in which only the error channel send throws. -/
def sendFailOnErrCh (cid : JsStr) : Except JsStr Unit :=
  if cid == "err-id".toList then Except.error "network".toList else Except.ok ()

/-- C8 counterexample: the console audit block sits in the same try/catch as
the primary routed send, so a throwing primary send aborts the dispatch before
the audit write: with the console channel resolvable, the effect trace of the
failed dispatch holds only the primary attempt and no console write. -/
theorem c8_audit_independence_counterexample :
    findNamedTextChannel guildFull "render-console-logs".toList = some consoleCh
    ∧ dispatchRenderEventToGuild sendFailOnErrCh "t0".toList guildFull payloadFailed =
      (false, [Effect.sendCall "err-id".toList
        (Msg.renderEmbed "deploy_failed".toList true)]) := by
  constructor
  · rfl
  · rfl

/-- C8 (amended): the audit block is written to the console-class channel
whenever one resolves and the primary routed send (if any) did not throw; the
attempt is recorded even when the console send itself throws.  When the
primary send throws, the dispatch aborts and the audit write is skipped (the
counterexample). -/
theorem c8_console_audit (send : JsStr → Except JsStr Unit) (nowTs : JsStr)
    (g : Guild) (payload : Json) (t : JsStr) (cch : Channel)
    (hc : classifyEvent payload = Except.ok (t, isErrorEvent t))
    (hcc : findNamedTextChannel g "render-console-logs".toList = some cch)
    (hok : ∀ ch, primaryTargetOf g (isErrorEvent t) = some ch → send ch.id = Except.ok ()) :
    Effect.sendCall cch.id (Msg.renderBlock (renderBlockLines t payload nowTs))
      ∈ (dispatchRenderEventToGuild send nowTs g payload).2 := by
  simp only [dispatchRenderEventToGuild, hc]
  cases hpt : primaryTargetOf g (isErrorEvent t) with
  | none =>
    unfold consoleBlockStep
    rw [hcc]
    cases hs : send cch.id <;> simp [hs]
  | some ch =>
    have hsok := hok ch hpt
    simp only [hsok]
    unfold consoleBlockStep
    rw [hcc]
    cases hs : send cch.id <;> simp [hs]

/-- Witness for C8 (amended): with all sends succeeding, the failed-deploy
dispatch writes the audit block to the console channel. -/
theorem c8_console_audit_witness :
    Effect.sendCall consoleCh.id
      (Msg.renderBlock (renderBlockLines "deploy_failed".toList payloadFailed "t0".toList))
      ∈ (dispatchRenderEventToGuild (fun _ => Except.ok ()) "t0".toList guildFull
          payloadFailed).2 :=
  c8_console_audit (fun _ => Except.ok ()) "t0".toList guildFull payloadFailed
    "deploy_failed".toList consoleCh (by rfl) (by rfl) (fun ch h => rfl)

/-! ### C6, C10: the POST /render-webhook handler and the body middleware -/

/-- Embedding of the raw-body middleware (lines 1190-1207): the raw bytes are
always captured; req.body is the parsed JSON when the content type declares
application/json and parsing succeeds, and the empty object otherwise (a
Buffer is always truthy, so the rawBody check of line 1197 never gates).  The
parser for the external JSON.parse is a parameter: none models a parse
exception. -/
def middlewareBody (parse : List Nat → Option Json) (req : Request) : Json :=
  match req.contentType with
  | some ct =>
    if jsIncludes "application/json".toList ct then
      match parse req.rawBody with
      | some j => j
      | none => Json.obj []
    else Json.obj []
  | none => Json.obj []

/-- An HTTP response: status code and body text. -/
structure HttpResponse where
  status : Nat
  body : JsStr
deriving DecidableEq

/-- Embedding of the POST /render-webhook handler (lines 1733-1757): 403 on
failed verification, else dispatch to every guild (each dispatch wrapped in
its own catch) and 200 OK.  Every failure point of the source body is caught,
so the 500 branch of the outer catch is unreachable in the model. -/
def renderWebhookHandler (secret : Option JsStr) (send : JsStr → Except JsStr Unit)
    (nowTs : JsStr) (guilds : List Guild) (req : Request) (body : Json) :
    HttpResponse × List Effect :=
  if verifyRenderWebhook secret req then
    let payload := if jsTruthy body then body else Json.obj []
    let effs := guilds.foldl
      (fun acc gl => acc ++ (dispatchRenderEventToGuild send nowTs gl payload).2) []
    (⟨200, "OK".toList⟩, effs)
  else
    (⟨403, "Invalid signature".toList⟩, [])

/-- The middleware composed with the handler: one inbound request end to end. -/
def handleRenderWebhookRequest (secret : Option JsStr) (send : JsStr → Except JsStr Unit)
    (nowTs : JsStr) (guilds : List Guild) (parse : List Nat → Option Json)
    (req : Request) : HttpResponse × List Effect :=
  renderWebhookHandler secret send nowTs guilds req (middlewareBody parse req)

/-- C6: the handler answers 403 exactly when signature verification fails and
200 OK whenever it succeeds, regardless of the per-guild delivery outcomes;
every modelled failure point is caught, so the status is always 200 or 403 and
500 could only arise from an unmodelled internal exception. -/
theorem c6_handler_status (secret : Option JsStr) (send : JsStr → Except JsStr Unit)
    (nowTs : JsStr) (guilds : List Guild) (parse : List Nat → Option Json)
    (req : Request) :
    (verifyRenderWebhook secret req = false →
      (handleRenderWebhookRequest secret send nowTs guilds parse req).1 =
        ⟨403, "Invalid signature".toList⟩)
    ∧ (verifyRenderWebhook secret req = true →
      (handleRenderWebhookRequest secret send nowTs guilds parse req).1 =
        ⟨200, "OK".toList⟩)
    ∧ ((handleRenderWebhookRequest secret send nowTs guilds parse req).1.status = 200
      ∨ (handleRenderWebhookRequest secret send nowTs guilds parse req).1.status = 403) := by
  unfold handleRenderWebhookRequest renderWebhookHandler
  cases hv : verifyRenderWebhook secret req <;> simp [hv]

/-- Witness for C6: with no configured secret verification passes and the
response is 200 OK; with a secret and an empty signature header the response
is 403. -/
theorem c6_handler_status_witness :
    (handleRenderWebhookRequest (some "whsec".toList) (fun _ => Except.ok ())
        "t0".toList [guildFull] (fun _ => none) ⟨[104, 105], none, none⟩).1 =
      ⟨403, "Invalid signature".toList⟩
    ∧ (handleRenderWebhookRequest none (fun _ => Except.ok ())
        "t0".toList [guildFull] (fun _ => none) ⟨[104, 105], none, none⟩).1 =
      ⟨200, "OK".toList⟩ := by
  constructor
  · exact (c6_handler_status (some "whsec".toList) (fun _ => Except.ok ()) "t0".toList
      [guildFull] (fun _ => none) ⟨[104, 105], none, none⟩).1 (by rfl)
  · exact (c6_handler_status none (fun _ => Except.ok ()) "t0".toList
      [guildFull] (fun _ => none) ⟨[104, 105], none, none⟩).2.1 (by rfl)

theorem classifyEvent_unknown_of_no_type (payload : Json)
    (h : (jsonField payload "type".toList).isNone = true) :
    classifyEvent payload = Except.ok ("unknown".toList, false) := by
  unfold classifyEvent
  rw [Option.isNone_iff_eq_none] at h
  rw [h]
  rfl

/-- C10: a request whose signature verifies but whose body is not parseable
JSON, or is not declared application/json, or parses to an object without a
type field, is still answered 200 OK; the middleware leaves the empty object
(or the typeless object) as the payload and the dispatcher classifies the
event as type unknown, a normal (non-failure) event. -/
theorem c10_unparseable_body (secret : Option JsStr) (send : JsStr → Except JsStr Unit)
    (nowTs : JsStr) (guilds : List Guild) (parse : List Nat → Option Json)
    (req : Request)
    (hv : verifyRenderWebhook secret req = true)
    (hbody : (∀ ct, req.contentType = some ct →
        jsIncludes "application/json".toList ct = false)
      ∨ (∀ ct, req.contentType = some ct → parse req.rawBody = none)
      ∨ (jsonField (middlewareBody parse req) "type".toList).isNone = true) :
    (handleRenderWebhookRequest secret send nowTs guilds parse req).1 =
      ⟨200, "OK".toList⟩
    ∧ classifyEvent (middlewareBody parse req) = Except.ok ("unknown".toList, false)
    ∧ isErrorEvent "unknown".toList = false := by
  have hmb : (jsonField (middlewareBody parse req) "type".toList).isNone = true := by
    rcases hbody with hb | hb | hb
    · unfold middlewareBody
      cases hct : req.contentType with
      | none => rfl
      | some ct =>
        simp only []
        rw [hb ct hct]
        rfl
    · unfold middlewareBody
      cases hct : req.contentType with
      | none => rfl
      | some ct =>
        simp only []
        by_cases hj : jsIncludes "application/json".toList ct = true
        · rw [if_pos hj, hb ct hct]
          rfl
        · rw [if_neg hj]
          rfl
    · exact hb
  refine ⟨?_, classifyEvent_unknown_of_no_type _ hmb, by decide⟩
  unfold handleRenderWebhookRequest renderWebhookHandler
  rw [hv]
  rfl

/-- Witness for C10: a verifying request (no secret configured) with an
unparseable body is accepted and classified unknown/normal. -/
theorem c10_unparseable_body_witness :
    (handleRenderWebhookRequest none (fun _ => Except.ok ()) "t0".toList [guildFull]
        (fun _ => none) ⟨[104, 105], none, some "application/json".toList⟩).1 =
      ⟨200, "OK".toList⟩
    ∧ classifyEvent (middlewareBody (fun _ => none)
        ⟨[104, 105], none, some "application/json".toList⟩) =
      Except.ok ("unknown".toList, false)
    ∧ isErrorEvent "unknown".toList = false :=
  c10_unparseable_body none (fun _ => Except.ok ()) "t0".toList [guildFull]
    (fun _ => none) ⟨[104, 105], none, some "application/json".toList⟩ (by rfl)
    (Or.inr (Or.inl (fun ct h => rfl)))
